import Mathlib

/-!
Shallow embedding of the declarative route system of `shiv-am`
(`DeclarativeRouter` in the generated route helper; the same class body is
emitted by the Express and Hono generators).  TypeScript `Function` values
are modelled by an opaque `Callable` type carrying a tag that records
whether `typeof v === "function"` holds (the only runtime inspection the
source performs on them).  The middleware registry (a `Map<string,
Function>`) is an association list where lookup returns the most recent
registration, matching `Map.set` overwrite semantics.  Optional TypeScript
array fields are `Option (List String)`: the source tests them for
presence with `if (route.disabled)` etc., and a *present but empty* array
is truthy in JavaScript, so presence and emptiness are distinguished
exactly as in the source.
-/

namespace DeclarativeRouter

/-- The five HTTP methods of the `METHODS` constant. -/
inductive HttpMethod where
  | GET
  | POST
  | PUT
  | DELETE
  | PATCH
deriving DecidableEq, Repr

/-- The upper-case spelling, as stored in `route.method` and used in
validation error messages. -/
def HttpMethod.upper : HttpMethod → String
  | .GET => "GET"
  | .POST => "POST"
  | .PUT => "PUT"
  | .DELETE => "DELETE"
  | .PATCH => "PATCH"

/-- The result of `route.method.toLowerCase()`, the framework-facing
method name used by `applyToExpress` / `applyToHono`. -/
def HttpMethod.toLowerCase : HttpMethod → String
  | .GET => "get"
  | .POST => "post"
  | .PUT => "put"
  | .DELETE => "delete"
  | .PATCH => "patch"

/-- A JavaScript value handed to the router: either a function value or a
non-function value.  The numeric id distinguishes different values; the
constructor records the result of `typeof v === "function"`. -/
inductive Callable where
  | fn (id : Nat)
  | notFn (id : Nat)
deriving DecidableEq, Repr

/-- The test `typeof v === "function"`. -/
def Callable.isFunction : Callable → Bool
  | .fn _ => true
  | .notFn _ => false

/-- The middleware registry: `Map<string, Function>`. -/
abbrev MiddlewareRegistry := List (String × Callable)

/-- Lookup, as in `Map.get(name)`: the most recent registration wins. -/
def getMiddleware (reg : MiddlewareRegistry) (name : String) : Option Callable :=
  (reg.find? (fun p => p.1 == name)).map (fun p => p.2)

/-- Membership, as in `Map.has(name)`. -/
def hasMiddleware (reg : MiddlewareRegistry) (name : String) : Bool :=
  (getMiddleware reg name).isSome

/-- The method `registerMiddleware(name, middleware)`: `Map.set`
overwrites, which an association list realizes by prepending (lookup finds
the newest entry). -/
def registerMiddleware (reg : MiddlewareRegistry) (name : String)
    (middleware : Callable) : MiddlewareRegistry :=
  (name, middleware) :: reg

/-- A `RouteDefinition`: optional array fields are `Option` because the
source branches on field *presence* (JavaScript truthiness of an array),
not on emptiness. -/
structure RouteDefinition where
  method : HttpMethod
  path : String
  handler : Callable
  enabled : Option (List String) := none
  disabled : Option (List String) := none
  roles : Option (List String) := none
  excludeRoles : Option (List String) := none
deriving DecidableEq, Repr

/-- The `RouteConfig` record. -/
structure RouteConfig where
  defaultMiddlewares : List String
  defaultRoles : List String
  routes : List RouteDefinition
deriving DecidableEq, Repr

/-- An entry of a computed middleware chain: either a registered callable
pushed directly, or the value produced by invoking the `roleCheck` factory
with a role list (`roleMiddleware(roles)` in the source). -/
inductive ChainEntry where
  | mw (f : Callable)
  | roleApplied (factory : Callable) (roles : List String)
deriving DecidableEq, Repr

/-- The middleware-name list computed by `buildMiddlewareChain` before
resolution: start from `defaultMiddlewares`, filter out `route.disabled`
when that field is present, then append `route.enabled` when present. -/
def middlewareNames (config : RouteConfig) (route : RouteDefinition) : List String :=
  let ms := config.defaultMiddlewares
  let ms := match route.disabled with
    | some d => ms.filter (fun m => !(d.contains m))
    | none => ms
  match route.enabled with
  | some e => ms ++ e
  | none => ms

/-- The final role list computed by `buildMiddlewareChain`: filter
`defaultRoles` by `route.excludeRoles` when present, then — if
`route.roles` is present — replace the result wholesale. -/
def finalRoles (config : RouteConfig) (route : RouteDefinition) : List String :=
  let rs := config.defaultRoles
  let rs := match route.excludeRoles with
    | some ex => rs.filter (fun r => !(ex.contains r))
    | none => rs
  match route.roles with
  | some r => r
  | none => rs

/-- The resolution loop of `buildMiddlewareChain`: look each name up in
the registry, throwing `Middleware ... not registered` at the first
missing one, otherwise pushing the callable onto the chain in order. -/
def resolveNames (reg : MiddlewareRegistry) : List String → Except String (List ChainEntry)
  | [] => .ok []
  | n :: rest =>
    match getMiddleware reg n with
    | none => .error ("Middleware " ++ n ++ " not registered")
    | some f =>
      match resolveNames reg rest with
      | .error e => .error e
      | .ok c => .ok (ChainEntry.mw f :: c)

/-- The name of the synthesized role-check middleware factory that the
role block of `buildMiddlewareChain` looks up. -/
def roleCheckName : String := "roleCheck"

/-- The method `buildMiddlewareChain(route)`.  After resolving the named
middleware, the role block runs: when the final role list is non-empty it
looks up `roleCheck` and, *only if present*, appends `roleCheck(roles)`; a
missing `roleCheck` is skipped without error. -/
def buildMiddlewareChain (reg : MiddlewareRegistry) (config : RouteConfig)
    (route : RouteDefinition) : Except String (List ChainEntry) :=
  match resolveNames reg (middlewareNames config route) with
  | .error e => .error e
  | .ok chain =>
    let roles := finalRoles config route
    if roles.length > 0 then
      match getMiddleware reg roleCheckName with
      | some f => .ok (chain ++ [ChainEntry.roleApplied f roles])
      | none => .ok chain
    else
      .ok chain

/-- The `Route METHOD path: ` text shared by all validation messages. -/
def routeLabel (route : RouteDefinition) : String :=
  "Route " ++ route.method.upper ++ " " ++ route.path ++ ": "

/-- The errors `validate` pushes for one route, in push order: first the
handler typeof check, then one error per name of
`defaultMiddlewares ++ (route.enabled || [])` missing from the registry.
Note the candidate set ignores `route.disabled` entirely. -/
def routeErrors (reg : MiddlewareRegistry) (config : RouteConfig)
    (route : RouteDefinition) : List String :=
  (if route.handler.isFunction then []
   else [routeLabel route ++ "Handler is not a function"]) ++
  ((config.defaultMiddlewares ++ route.enabled.getD []).filterMap
    (fun mw =>
      if hasMiddleware reg mw then none
      else some (routeLabel route ++ "Middleware " ++ mw ++ " not registered")))

/-- The accumulating loop of `validate`: errors are appended route by
route; no route aborts the loop. -/
def validateGo (reg : MiddlewareRegistry) (config : RouteConfig) :
    List String → List RouteDefinition → List String
  | errors, [] => errors
  | errors, route :: rest =>
    validateGo reg config (errors ++ routeErrors reg config route) rest

/-- The method `validate()`: run the loop from an empty error array and
report `valid := errors.length === 0` together with the errors. -/
def validate (reg : MiddlewareRegistry) (config : RouteConfig) :
    Bool × List String :=
  let errors := validateGo reg config [] config.routes
  (errors.length == 0, errors)

/-- A registration recorded on the routing surface:
`router[method](path, ...middlewares, handler)`. -/
structure Registration where
  method : String
  path : String
  middlewares : List ChainEntry
  handler : Callable
deriving DecidableEq, Repr

/-- The mutation a successful iteration of the apply loop performs on the
routing surface for one route. -/
def registrationOf (reg : MiddlewareRegistry) (config : RouteConfig)
    (route : RouteDefinition) : Registration :=
  { method := route.method.toLowerCase
    path := route.path
    middlewares := (buildMiddlewareChain reg config route).toOption.getD []
    handler := route.handler }

/-- The shared loop of `applyToExpress` / `applyToHono`: for each route in
table order, build its chain and register it; a chain-build exception
aborts the loop, but registrations already performed on the (by-reference)
routing surface persist.  The result pairs the surface as left behind with
the exception, if one was thrown. -/
def applyGo (reg : MiddlewareRegistry) (config : RouteConfig) :
    List Registration → List RouteDefinition → List Registration × Option String
  | router, [] => (router, none)
  | router, route :: rest =>
    match buildMiddlewareChain reg config route with
    | .error e => (router, some e)
    | .ok ms =>
      applyGo reg config
        (router ++ [{ method := route.method.toLowerCase
                      path := route.path
                      middlewares := ms
                      handler := route.handler }]) rest

/-- The method `applyToExpress(router)`: iterate the route table; it
returns the router it was given (here: the surface state, paired with the
exception slot). -/
def applyToExpress (reg : MiddlewareRegistry) (config : RouteConfig)
    (router : List Registration) : List Registration × Option String :=
  applyGo reg config router config.routes

/-- The method `applyToHono(app)`: textually the same loop as
`applyToExpress`. -/
def applyToHono (reg : MiddlewareRegistry) (config : RouteConfig)
    (app : List Registration) : List Registration × Option String :=
  applyGo reg config app config.routes

deriving instance DecidableEq for Except

/-! Concrete configurations used to exercise the model. -/

/-- An empty middleware registry. -/
def regEmpty : MiddlewareRegistry := []

/-- A registry holding only a logging middleware. -/
def regLog : MiddlewareRegistry := [("log", Callable.fn 0)]

/-- A registry holding only the role-check factory. -/
def regRole : MiddlewareRegistry := [(roleCheckName, Callable.fn 9)]

/-- A route with no per-route overrides. -/
def rPlain : RouteDefinition := { method := .GET, path := "/", handler := .fn 1 }

/-- A config whose only non-default datum is a non-empty default role
list. -/
def cfgRolesOnly : RouteConfig :=
  { defaultMiddlewares := [], defaultRoles := ["admin"], routes := [rPlain] }

/-- A route enabling the registered logging middleware. -/
def rA : RouteDefinition :=
  { method := .GET, path := "/a", handler := .fn 1, enabled := some ["log"] }

/-- A route enabling a middleware name that is never registered. -/
def rB : RouteDefinition :=
  { method := .GET, path := "/b", handler := .fn 2, enabled := some ["auth"] }

/-- A config whose first route resolves and whose second does not. -/
def cfgHalf : RouteConfig :=
  { defaultMiddlewares := [], defaultRoles := [], routes := [rA, rB] }

/-- The worked example of the specification for the disable/enable steps:
defaults filtered by a disable list, extras appended after them. -/
def rEx : RouteDefinition :=
  { method := .GET
    path := "/e"
    handler := .fn 3
    enabled := some ["X", "Y"]
    disabled := some ["A"] }

/-- The enclosing config of the disable/enable worked example. -/
def cfgEx : RouteConfig :=
  { defaultMiddlewares := ["A", "B"], defaultRoles := [], routes := [rEx, rPlain] }

/-- The worked example of the specification for role precedence: both
replacement roles and an exclusion naming the default role. -/
def rRoles : RouteDefinition :=
  { method := .GET
    path := "/r"
    handler := .fn 4
    roles := some ["editor"]
    excludeRoles := some ["admin"] }

/-- The enclosing config of the role-precedence worked example. -/
def cfgReplace : RouteConfig :=
  { defaultMiddlewares := [], defaultRoles := ["admin"], routes := [rRoles] }

/-- A route carrying a present-but-empty role list. -/
def rEmptyRoles : RouteDefinition :=
  { method := .GET, path := "/z", handler := .fn 5, roles := some [] }

/-- Default roles are non-empty; one route blanks them with an empty
array, the other inherits them. -/
def cfgDefRoles : RouteConfig :=
  { defaultMiddlewares := []
    defaultRoles := ["admin"]
    routes := [rEmptyRoles, rPlain] }

/-- A route disabling the sole default middleware. -/
def rDis : RouteDefinition :=
  { method := .GET, path := "/d", handler := .fn 6, disabled := some ["auth"] }

/-- A config whose only default middleware is disabled by its only route
and absent from the registry. -/
def cfgDis : RouteConfig :=
  { defaultMiddlewares := ["auth"], defaultRoles := [], routes := [rDis] }

/-- Three routes, each referencing one distinct unregistered middleware. -/
def cfgThree : RouteConfig :=
  { defaultMiddlewares := []
    defaultRoles := []
    routes :=
      [{ method := .GET, path := "/1", handler := .fn 1, enabled := some ["m1"] },
       { method := .POST, path := "/2", handler := .fn 2, enabled := some ["m2"] },
       { method := .PUT, path := "/3", handler := .fn 3, enabled := some ["m3"] }] }

/-- A config that applies cleanly against `regLog`. -/
def cfgOk : RouteConfig :=
  { defaultMiddlewares := ["log"]
    defaultRoles := []
    routes :=
      [{ method := .GET, path := "/x", handler := .fn 1 },
       { method := .POST, path := "/y", handler := .fn 2 }] }

/-- A route whose extras repeat the sole default middleware. -/
def rDup : RouteDefinition :=
  { method := .GET, path := "/dup", handler := .fn 7, enabled := some ["log"] }

/-- A config in which a default name is repeated by a route extra. -/
def cfgDup : RouteConfig :=
  { defaultMiddlewares := ["log"], defaultRoles := [], routes := [rDup] }

/-- A route that both disables and re-enables the same name. -/
def rBothDis : RouteDefinition :=
  { method := .GET
    path := "/bd"
    handler := .fn 8
    enabled := some ["x"]
    disabled := some ["x"] }

/-- The enclosing config of the disable-and-enable route. -/
def cfgBothDis : RouteConfig :=
  { defaultMiddlewares := ["x"], defaultRoles := [], routes := [rBothDis] }

/-! Helper lemmas shared by the claim theorems. -/

/-- The two option branches of the name computation collapse to a single
filter-then-append normal form. -/
theorem middlewareNames_eq (config : RouteConfig) (route : RouteDefinition) :
    middlewareNames config route =
      config.defaultMiddlewares.filter
        (fun m => !((route.disabled.getD []).contains m)) ++ route.enabled.getD [] := by
  unfold middlewareNames
  cases route.disabled <;> cases route.enabled <;> simp

/-- The accumulating validation loop computes the concatenation, over the
route table in order, of each route's error block. -/
theorem validateGo_eq (reg : MiddlewareRegistry) (config : RouteConfig) :
    ∀ (routes : List RouteDefinition) (errors : List String),
      validateGo reg config errors routes =
        errors ++ routes.flatMap (routeErrors reg config)
  | [], errors => by simp [validateGo]
  | route :: rest, errors => by
    simp [validateGo, validateGo_eq reg config rest, List.flatMap_cons]

/-- The resolution loop throws as soon as some listed name has no registry
entry. -/
theorem resolveNames_error_of_missing (reg : MiddlewareRegistry) :
    ∀ names : List String, (∃ n ∈ names, getMiddleware reg n = none) →
      ∃ e, resolveNames reg names = .error e
  | [], h => absurd h (by simp)
  | n :: rest, h => by
    unfold resolveNames
    cases hn : getMiddleware reg n with
    | none => exact ⟨_, rfl⟩
    | some f =>
      have hrest : ∃ m ∈ rest, getMiddleware reg m = none := by
        rcases h with ⟨m, hm, hmiss⟩
        rcases List.mem_cons.mp hm with heq | hmem
        · exact absurd hmiss (by rw [heq, hn]; simp)
        · exact ⟨m, hmem, hmiss⟩
      rcases resolveNames_error_of_missing reg rest hrest with ⟨e, he⟩
      rw [he]
      exact ⟨e, rfl⟩

/-- When every chain builds, the apply loop extends the surface by one
registration per route, in table order, and throws nothing. -/
theorem applyGo_ok (reg : MiddlewareRegistry) (config : RouteConfig) :
    ∀ (routes : List RouteDefinition) (router : List Registration),
      (∀ r ∈ routes, ∃ c, buildMiddlewareChain reg config r = .ok c) →
      applyGo reg config router routes =
        (router ++ routes.map (registrationOf reg config), none)
  | [], router, _ => by simp [applyGo]
  | route :: rest, router, h => by
    rcases h route (List.mem_cons_self route rest) with ⟨c, hc⟩
    have hrest : ∀ r ∈ rest, ∃ c, buildMiddlewareChain reg config r = .ok c :=
      fun r hr => h r (List.mem_cons_of_mem route hr)
    unfold applyGo
    simp only [hc]
    rw [applyGo_ok reg config rest _ hrest]
    simp [registrationOf, hc, List.append_assoc, Except.toOption]

/-- When the first failing chain sits after a prefix of building chains,
the apply loop registers exactly that prefix and throws that error. -/
theorem applyGo_error (reg : MiddlewareRegistry) (config : RouteConfig)
    (bad : RouteDefinition) (rest : List RouteDefinition) (e : String)
    (hbad : buildMiddlewareChain reg config bad = .error e) :
    ∀ (pre : List RouteDefinition) (router : List Registration),
      (∀ r ∈ pre, ∃ c, buildMiddlewareChain reg config r = .ok c) →
      applyGo reg config router (pre ++ bad :: rest) =
        (router ++ pre.map (registrationOf reg config), some e)
  | [], router, _ => by simp [applyGo, hbad]
  | p :: pre, router, h => by
    rcases h p (List.mem_cons_self p pre) with ⟨c, hc⟩
    have hpre : ∀ r ∈ pre, ∃ c, buildMiddlewareChain reg config r = .ok c :=
      fun r hr => h r (List.mem_cons_of_mem p hr)
    rw [List.cons_append]
    unfold applyGo
    simp only [hc]
    rw [applyGo_error reg config bad rest e hbad pre _ hpre]
    simp [registrationOf, hc, List.append_assoc, Except.toOption]

/-! Claim theorems. -/

/-- C1 (amended): when the final role set of a route is non-empty,
`buildMiddlewareChain` appends the invocation of the `roleCheck` factory
with that role set as the final chain entry *provided the factory is
registered*; when `roleCheck` has no registry entry the chain is returned
without any role-check entry and without an error — the role check is
silently dropped.  Only *named* middleware is never silently dropped: a
name of the computed list with no registry entry makes the build throw. -/
theorem claim_C1 (reg : MiddlewareRegistry) (config : RouteConfig)
    (route : RouteDefinition) :
    (∀ chain, resolveNames reg (middlewareNames config route) = .ok chain →
      finalRoles config route ≠ [] →
      buildMiddlewareChain reg config route =
        .ok (chain ++
          match getMiddleware reg roleCheckName with
          | some f => [ChainEntry.roleApplied f (finalRoles config route)]
          | none => [])) ∧
    (∀ n ∈ middlewareNames config route, getMiddleware reg n = none →
      ∃ e, buildMiddlewareChain reg config route = .error e) := by
  constructor
  · intro chain hres hne
    have hlen : (finalRoles config route).length > 0 :=
      List.length_pos.mpr hne
    cases hrc : getMiddleware reg roleCheckName <;>
      simp [buildMiddlewareChain, hres, hrc, hlen]
  · intro n hn hmiss
    rcases resolveNames_error_of_missing reg (middlewareNames config route)
      ⟨n, hn, hmiss⟩ with ⟨e, he⟩
    exact ⟨e, by simp [buildMiddlewareChain, he]⟩

/-- C1 witness: with `roleCheck` registered and default roles `[admin]`,
the chain of a plain route is exactly the applied role-check entry; with
an unregistered *named* middleware the build throws. -/
theorem claim_C1_witness :
    buildMiddlewareChain regRole cfgRolesOnly rPlain =
      .ok [ChainEntry.roleApplied (Callable.fn 9) ["admin"]] ∧
    (∃ e, buildMiddlewareChain regEmpty cfgHalf rB = .error e) := by
  constructor
  · have h := (claim_C1 regRole cfgRolesOnly rPlain).1 [] rfl (by decide)
    rw [h]; decide
  · exact (claim_C1 regEmpty cfgHalf rB).2 ("auth") (by decide) (by decide)

/-- C1 counterexample: the final role set of the route is the non-empty
`[admin]`, yet with `roleCheck` unregistered the build returns the empty
chain without error — the role-check middleware required by the chain is
silently dropped, refuting the claim as stated. -/
theorem claim_C1_counterexample :
    finalRoles cfgRolesOnly rPlain = ["admin"] ∧
    hasMiddleware regEmpty roleCheckName = false ∧
    buildMiddlewareChain regEmpty cfgRolesOnly rPlain = .ok [] := by decide

/-- C2 (amended): the apply step performs no validation.  It registers
routes one at a time in table order; the first route whose chain fails to
build aborts the loop with that single error, and every route before it
stays registered on the surface — partial registration occurs. -/
theorem claim_C2 (reg : MiddlewareRegistry) (config : RouteConfig)
    (router : List Registration) (pre : List RouteDefinition)
    (bad : RouteDefinition) (rest : List RouteDefinition) (e : String)
    (hsplit : config.routes = pre ++ bad :: rest)
    (hpre : ∀ r ∈ pre, ∃ c, buildMiddlewareChain reg config r = .ok c)
    (hbad : buildMiddlewareChain reg config bad = .error e) :
    applyToExpress reg config router =
      (router ++ pre.map (registrationOf reg config), some e) ∧
    applyToHono reg config router =
      (router ++ pre.map (registrationOf reg config), some e) := by
  unfold applyToExpress applyToHono
  rw [hsplit]
  exact ⟨applyGo_error reg config bad rest e hbad pre router hpre,
         applyGo_error reg config bad rest e hbad pre router hpre⟩

/-- C2 witness: applying the half-resolvable config registers the first
route and then throws the second route's single error. -/
theorem claim_C2_witness :
    applyToExpress regLog cfgHalf [] =
      ([registrationOf regLog cfgHalf rA], some ("Middleware auth not registered")) := by
  have h := (claim_C2 regLog cfgHalf [] [rA] rB [] ("Middleware auth not registered")
    rfl (by
      intro r hr
      simp at hr
      subst hr
      exact ⟨[ChainEntry.mw (Callable.fn 0)], by decide⟩)
    (by decide)).1
  simpa using h

/-- C2 counterexample: a config that fails validation is applied anyway;
one route ends up registered (not zero) and the reported failure is the
single first error, not an aggregate of every validation failure. -/
theorem claim_C2_counterexample :
    (validate regLog cfgHalf).1 = false ∧
    applyToExpress regLog cfgHalf [] =
      ([{ method := "get", path := "/a",
          middlewares := [ChainEntry.mw (Callable.fn 0)],
          handler := Callable.fn 1 }],
       some ("Middleware auth not registered")) := by decide

/-- C3 (amended): the validator checks only that each handler is a
function and that each name of `defaultMiddlewares ++ route.enabled` has a
registry entry; it never looks at role fields or at the `roleCheck` entry,
so whenever those named checks pass the config is reported valid — for
any registry, in particular one without `roleCheck`, and for any role
sets. -/
theorem claim_C3 (reg : MiddlewareRegistry) (config : RouteConfig)
    (h : ∀ route ∈ config.routes, route.handler.isFunction = true ∧
      ∀ mw ∈ config.defaultMiddlewares ++ route.enabled.getD [],
        hasMiddleware reg mw = true) :
    validate reg config = (true, []) := by
  have herr : ∀ route ∈ config.routes, routeErrors reg config route = [] := by
    intro route hr
    rcases h route hr with ⟨hf, hmw⟩
    unfold routeErrors
    rw [if_pos hf]
    rw [List.filterMap_eq_nil_iff.mpr ?_]
    · simp
    · intro mw hmwmem
      rw [if_pos (hmw mw hmwmem)]
  have hflat : config.routes.flatMap (routeErrors reg config) = [] := by
    exact List.flatMap_eq_nil_iff.mpr herr
  simp [validate, validateGo_eq, hflat]

/-- C3 witness: the empty registry passes validation of a config whose
only references are its non-empty default roles. -/
theorem claim_C3_witness : validate regEmpty cfgRolesOnly = (true, []) :=
  claim_C3 regEmpty cfgRolesOnly (by decide)

/-- C3 counterexample: a route's final role set is the non-empty
`[admin]` and `roleCheck` is absent from the registry, yet the config is
reported valid with no errors, refuting the claim as stated. -/
theorem claim_C3_counterexample :
    finalRoles cfgRolesOnly rPlain = ["admin"] ∧
    hasMiddleware regEmpty roleCheckName = false ∧
    validate regEmpty cfgRolesOnly = (true, []) := by decide

/-- C4: the middleware-name list computed before the role-check entry is
the default list with every name of `route.disabled` removed, order
preserved, followed by the members of `route.enabled` in the order given;
with both overrides empty it is exactly `defaultMiddlewares`. -/
theorem claim_C4 (config : RouteConfig) (route : RouteDefinition) :
    middlewareNames config route =
      config.defaultMiddlewares.filter
        (fun m => !((route.disabled.getD []).contains m)) ++ route.enabled.getD [] ∧
    (route.disabled.getD [] = [] → route.enabled.getD [] = [] →
      middlewareNames config route = config.defaultMiddlewares) := by
  refine ⟨middlewareNames_eq config route, fun hd he => ?_⟩
  rw [middlewareNames_eq config route, hd, he]
  simp

/-- C4 witness: the worked example of the specification, defaults
`[A, B]` with `[A]` disabled and `[X, Y]` enabled, yields `[B, X, Y]`;
a route with no overrides keeps the defaults verbatim. -/
theorem claim_C4_witness :
    middlewareNames cfgEx rEx = ["B", "X", "Y"] ∧
    middlewareNames cfgEx rPlain = cfgEx.defaultMiddlewares := by
  constructor
  · rw [(claim_C4 cfgEx rEx).1]; decide
  · exact (claim_C4 cfgEx rPlain).2 rfl rfl

/-- C5: role precedence — the exclusion filter acts on the default roles
first, and a present `route.roles` then replaces the role set wholesale,
so when both are given the final role set is `route.roles` and the
exclusion has no effect. -/
theorem claim_C5 (config : RouteConfig) (route : RouteDefinition) :
    (∀ rs, route.roles = some rs → finalRoles config route = rs) ∧
    (route.roles = none →
      finalRoles config route =
        config.defaultRoles.filter
          (fun r => !((route.excludeRoles.getD []).contains r))) := by
  constructor
  · intro rs hrs
    simp [finalRoles, hrs]
  · intro hn
    cases he : route.excludeRoles <;> simp [finalRoles, hn, he]

/-- C5 witness: the worked example of the specification — default roles
`[admin]`, replacement `[editor]`, exclusion `[admin]` — ends with
`[editor]` active. -/
theorem claim_C5_witness : finalRoles cfgReplace rRoles = ["editor"] :=
  (claim_C5 cfgReplace rRoles).1 ["editor"] rfl

/-- C6: validation checks the pre-disable union — the candidate set is
`defaultMiddlewares ++ route.enabled` with no disable filter applied, so
an unregistered default name still yields that route's error (and an
invalid verdict) even when the route disables it and the name therefore
never reaches the computed chain. -/
theorem claim_C6 (reg : MiddlewareRegistry) (config : RouteConfig)
    (route : RouteDefinition) (mw : String)
    (hr : route ∈ config.routes) (hd : mw ∈ config.defaultMiddlewares)
    (hmiss : hasMiddleware reg mw = false) :
    (routeLabel route ++ "Middleware " ++ mw ++ " not registered") ∈
      (validate reg config).2 ∧
    (validate reg config).1 = false ∧
    (mw ∈ route.disabled.getD [] → route.enabled = none →
      mw ∉ middlewareNames config route) := by
  have h2 : (validate reg config).2 = config.routes.flatMap (routeErrors reg config) := by
    simp [validate, validateGo_eq]
  have hmem : (routeLabel route ++ "Middleware " ++ mw ++ " not registered") ∈
      (validate reg config).2 := by
    rw [h2]
    refine List.mem_flatMap.mpr ⟨route, hr, ?_⟩
    unfold routeErrors
    refine List.mem_append_right _ ?_
    refine List.mem_filterMap.mpr ⟨mw, List.mem_append_left _ hd, ?_⟩
    rw [if_neg (by simp [hmiss])]
  refine ⟨hmem, ?_, ?_⟩
  · have h1 : (validate reg config).1 = (((validate reg config).2).length == 0) := rfl
    have hne := List.ne_nil_of_mem hmem
    rw [h1]
    simp [List.length_eq_zero, hne]
  · intro hdis hen
    rw [middlewareNames_eq, hen]
    simp only [Option.getD_none, List.append_nil]
    intro hmem2
    have hpred := (List.mem_filter.mp hmem2).2
    simp at hpred
    exact hpred hdis

/-- C6 witness: the sole default middleware is unregistered and disabled
by the only route; validation still reports it for that route and rejects
the config, while the computed name list indeed omits it. -/
theorem claim_C6_witness :
    (routeLabel rDis ++ "Middleware " ++ "auth" ++ " not registered") ∈
      (validate regEmpty cfgDis).2 ∧
    (validate regEmpty cfgDis).1 = false ∧
    (("auth") ∈ rDis.disabled.getD [] → rDis.enabled = none →
      ("auth") ∉ middlewareNames cfgDis rDis) :=
  claim_C6 regEmpty cfgDis rDis ("auth") (by decide) (by decide) (by decide)

/-- C7: validation is total and batching — the error list is exactly the
concatenation, in route-table order, of each route's error block (so no
route stops the scan early), the valid flag holds iff that list is empty,
and the three-routes-with-three-missing-names instance yields exactly
three errors and an invalid verdict.  The embedding is a pure function of
the registry and config, so validation mutates neither. -/
theorem claim_C7 (reg : MiddlewareRegistry) (config : RouteConfig) :
    (validate reg config).2 = config.routes.flatMap (routeErrors reg config) ∧
    ((validate reg config).1 = true ↔ (validate reg config).2 = []) ∧
    (validate regEmpty cfgThree).1 = false ∧
    (validate regEmpty cfgThree).2.length = 3 := by
  have h2 : (validate reg config).2 = config.routes.flatMap (routeErrors reg config) := by
    simp [validate, validateGo_eq]
  refine ⟨h2, ?_, by decide, by decide⟩
  have h1 : (validate reg config).1 = (((validate reg config).2).length == 0) := rfl
  rw [h1]
  simp [List.length_eq_zero]

/-- C8: when every chain builds, the apply step extends the surface it
was given by one registration per route, in exactly route-table order,
each holding the lower-cased method, the verbatim path, and the chain of
one `buildMiddlewareChain` evaluation for that route, with no error; the
Hono variant behaves identically. -/
theorem claim_C8 (reg : MiddlewareRegistry) (config : RouteConfig)
    (router : List Registration)
    (h : ∀ r ∈ config.routes, ∃ c, buildMiddlewareChain reg config r = .ok c) :
    applyToExpress reg config router =
      (router ++ config.routes.map (registrationOf reg config), none) ∧
    applyToHono reg config router =
      (router ++ config.routes.map (registrationOf reg config), none) := by
  unfold applyToExpress applyToHono
  exact ⟨applyGo_ok reg config config.routes router h,
         applyGo_ok reg config config.routes router h⟩

/-- C8 witness: applying a clean two-route config to an empty surface
registers both routes in declaration order with lower-cased methods and
verbatim paths. -/
theorem claim_C8_witness :
    applyToExpress regLog cfgOk [] =
      ([{ method := "get", path := "/x",
          middlewares := [ChainEntry.mw (Callable.fn 0)],
          handler := Callable.fn 1 },
        { method := "post", path := "/y",
          middlewares := [ChainEntry.mw (Callable.fn 0)],
          handler := Callable.fn 2 }], none) := by
  have h := (claim_C8 regLog cfgOk [] (by
    intro r hr
    simp [cfgOk] at hr
    rcases hr with h | h <;> subst h <;>
      exact ⟨[ChainEntry.mw (Callable.fn 0)], by decide⟩)).1
  rw [h]; decide

/-- C9: the disable filter touches only the defaults — every member of
`route.enabled` appears in the computed name list no matter what
`route.disabled` says, occurrence counts add up with no deduplication,
and a name that is both a surviving default and an extra appears at least
twice. -/
theorem claim_C9 (config : RouteConfig) (route : RouteDefinition) (n : String) :
    (n ∈ route.enabled.getD [] → n ∈ middlewareNames config route) ∧
    ((middlewareNames config route).count n =
      (config.defaultMiddlewares.filter
        (fun m => !((route.disabled.getD []).contains m))).count n +
      (route.enabled.getD []).count n) ∧
    (n ∈ config.defaultMiddlewares → n ∉ route.disabled.getD [] →
      n ∈ route.enabled.getD [] → 2 ≤ (middlewareNames config route).count n) := by
  rw [middlewareNames_eq]
  refine ⟨fun h => List.mem_append_right _ h, List.count_append .., fun hdef hdis hen => ?_⟩
  rw [List.count_append]
  have h1 : n ∈ config.defaultMiddlewares.filter
      (fun m => !((route.disabled.getD []).contains m)) := by
    refine List.mem_filter.mpr ⟨hdef, ?_⟩
    simpa using hdis
  have c1 : 0 < (config.defaultMiddlewares.filter
      (fun m => !((route.disabled.getD []).contains m))).count n :=
    List.count_pos_iff.mpr h1
  have c2 : 0 < (route.enabled.getD []).count n := List.count_pos_iff.mpr hen
  omega

/-- C9 witness: a default name repeated as an extra occurs twice in the
computed list, and a name that a route both disables and enables still
appears in the list. -/
theorem claim_C9_witness :
    2 ≤ (middlewareNames cfgDup rDup).count ("log") ∧
    ("x") ∈ middlewareNames cfgBothDis rBothDis := by
  constructor
  · exact (claim_C9 cfgDup rDup ("log")).2.2 (by decide) (by decide) (by decide)
  · exact (claim_C9 cfgBothDis rBothDis ("x")).1 (by decide)

/-- C10: a present-but-empty `roles` array is not a no-op — it replaces
the role set by the empty set, so the build appends no role-check entry
even with non-empty default roles and `roleCheck` registered; omitting
both role fields leaves the default roles active. -/
theorem claim_C10 (reg : MiddlewareRegistry) (config : RouteConfig)
    (route : RouteDefinition) :
    (route.roles = some [] →
      finalRoles config route = [] ∧
      buildMiddlewareChain reg config route =
        resolveNames reg (middlewareNames config route)) ∧
    (route.roles = none → route.excludeRoles = none →
      finalRoles config route = config.defaultRoles) := by
  constructor
  · intro h
    have hr : finalRoles config route = [] := by simp [finalRoles, h]
    refine ⟨hr, ?_⟩
    cases hres : resolveNames reg (middlewareNames config route) <;>
      simp [buildMiddlewareChain, hres, hr]
  · intro h1 h2
    simp [finalRoles, h1, h2]

/-- C10 witness: under default roles `[admin]` and a registered
`roleCheck`, the route with `roles := some []` gets a chain with no
role-check entry, while the override-free route keeps `[admin]` active. -/
theorem claim_C10_witness :
    finalRoles cfgDefRoles rEmptyRoles = [] ∧
    buildMiddlewareChain regRole cfgDefRoles rEmptyRoles =
      resolveNames regRole (middlewareNames cfgDefRoles rEmptyRoles) ∧
    finalRoles cfgDefRoles rPlain = ["admin"] := by
  refine ⟨((claim_C10 regRole cfgDefRoles rEmptyRoles).1 rfl).1,
          ((claim_C10 regRole cfgDefRoles rEmptyRoles).1 rfl).2, ?_⟩
  have h := (claim_C10 regRole cfgDefRoles rPlain).2 rfl rfl
  simpa using h

end DeclarativeRouter
